import Mathlib

/-!
Formal model of the gpu-container-wan22 serverless video-generation handler:
a shallow embedding of the pure cores of `src/handler.py`,
`src/utils/input_validator.py` and `src/utils/cleanup_manager.py`,
together with theorems about input validation, dimension rounding, the
image-source selection, the connection probe, the completion-poll loop,
the cleanup tracker and the result upload.
-/

namespace Wan22

/-! ## Dimension rounding (`handler.py`, `to_nearest_multiple_of_16`, lines 23-32) -/

/-- Round-half-to-even of `n / 16`.  For an integer `n`, Python's
`round(n / 16.0)` computes exactly this value: the float quotient
`n / 16.0` is exact for the magnitudes involved and Python's one-argument
`round` uses banker's rounding (ties go to the even integer). -/
def roundHalfEven16 (n : Int) : Int :=
  if n % 16 < 8 then n / 16
  else if 8 < n % 16 then n / 16 + 1
  else if (n / 16) % 2 = 0 then n / 16 else n / 16 + 1

/-- `to_nearest_multiple_of_16(value)` from `handler.py` lines 23-32:
`adjusted = int(round(value / 16.0) * 16); if adjusted < 16: adjusted = 16`.
Modelled on integer inputs (the handler's `width`/`height` job fields). -/
def to_nearest_multiple_of_16 (n : Int) : Int :=
  let adjusted := roundHalfEven16 n * 16
  if adjusted < 16 then 16 else adjusted

/-! ## Input validator (`src/utils/input_validator.py`)

Each `validate_*` static method returns a result dict; we mirror the keys
each method actually writes.  Inputs are modelled as `Int` (the
`int(...)`-conversion failure branches for non-numeric inputs are outside
the integer-typed model). -/

/-- Result dict of `InputValidator.validate_resolution` (keys `valid`,
`errors`, `warnings`, and on success `width`/`height`). -/
structure ResolutionResult where
  valid : Bool
  errors : List String
  warnings : List String
  width : Option Int
  height : Option Int
  deriving Repr, DecidableEq

/-- Result dict of `InputValidator.validate_num_frames` /
`validate_steps` (keys `valid`, `errors`, `warnings`, and on success
`value`). -/
structure IntParamResult where
  valid : Bool
  errors : List String
  warnings : List String
  value : Option Int
  deriving Repr, DecidableEq

/-- The allowed-resolution list of `validate_resolution`
(`input_validator.py` line 59): `[(1280, 704), (704, 1280)]`. -/
def valid_resolutions : List (Int × Int) := [(1280, 704), (704, 1280)]

/-- `InputValidator.validate_resolution` (`input_validator.py` lines
47-71): a pair outside `valid_resolutions` yields `valid = False` with an
error message; a pair in the list yields `valid = True` with the pair
echoed back. -/
def validate_resolution (width height : Int) : ResolutionResult :=
  if (width, height) ∈ valid_resolutions then
    { valid := true, errors := [], warnings := [],
      width := some width, height := some height }
  else
    { valid := false,
      errors := ["Resolution " ++ toString width ++ "x" ++ toString height ++
        " is not supported. TI2V-5B only supports 720P: 1280x704 or 704x1280"],
      warnings := [], width := none, height := none }

/-- `InputValidator.validate_num_frames` (`input_validator.py` lines
73-101).  The `720 < n` test models `duration_seconds = n / 24 > 30`
(exact, since `n / 24 > 30` iff `n > 720`); the float formatting of the
warning text is elided. -/
def validate_num_frames (n : Int) : IntParamResult :=
  if n < 1 then
    { valid := false, errors := ["num_frames must be at least 1"],
      warnings := [], value := none }
  else if 300 < n then
    { valid := false, errors := ["num_frames cannot exceed 300"],
      warnings := [], value := none }
  else
    { valid := true, errors := [],
      warnings := if 720 < n then ["Large number of frames"] else [],
      value := some n }

/-- `InputValidator.validate_steps` (`input_validator.py` lines 103-129). -/
def validate_steps (n : Int) : IntParamResult :=
  if n < 1 then
    { valid := false, errors := ["steps must be at least 1"],
      warnings := [], value := none }
  else if 50 < n then
    { valid := false, errors := ["steps cannot exceed 50"],
      warnings := [], value := none }
  else
    { valid := true, errors := [],
      warnings :=
        (if n < 5 then ["Very low step count may result in lower quality"] else []) ++
        (if 20 < n then ["High step count will increase generation time significantly"] else []),
      value := some n }

/-! ## The execution graph and its patching (`handler.py`, `handler`, lines 178-265)

The ComfyUI workflow JSON is a mapping from node-id strings to node
records; the handler only ever reads and overwrites entries of a node's
`"inputs"` sub-dict, so a node is modelled directly by its `inputs`
mapping (an association list from field name to value). -/

/-- A JSON value stored in a workflow-node input field: the handler writes
integers (frames, seeds, steps, dimensions, overlap), strings (prompt
text, image path, LoRA names) and floats (cfg, LoRA strengths; modelled as
rationals since they are only stored, never computed with). -/
inductive GValue where
  | int (n : Int)
  | str (s : String)
  | rat (q : Rat)
  deriving Repr, DecidableEq

/-- A workflow node, i.e. its `"inputs"` dict. -/
abbrev GNode := List (String × GValue)

/-- The workflow graph: node-id → node. -/
abbrev Graph := List (String × GNode)

/-- First-match association-list lookup (Python dict read `d[k]`). -/
def lookupA {α : Type} : List (String × α) → String → Option α
  | [], _ => none
  | (k', v) :: rest, k => if k' = k then some v else lookupA rest k

/-- Association-list update (Python dict write `d[k] = v`): replace the
first binding of `k`, or append a new binding. -/
def updA {α : Type} : List (String × α) → String → α → List (String × α)
  | [], k, v => [(k, v)]
  | (k', v') :: rest, k, v =>
    if k' = k then (k, v) :: rest else (k', v') :: updA rest k v

/-- `"nid" in prompt` (Python membership test on the graph dict). -/
def hasNode (g : Graph) (nid : String) : Bool := (lookupA g nid).isSome

/-- Read `prompt[nid]["inputs"][fld]`. -/
def getField (g : Graph) (nid fld : String) : Option GValue :=
  match lookupA g nid with
  | none => none
  | some nd => lookupA nd fld

/-- Write `prompt[nid]["inputs"][fld] = v`.  Returns `none` when the node
is absent (Python raises `KeyError`). -/
def setField (g : Graph) (nid fld : String) (v : GValue) : Option Graph :=
  match lookupA g nid with
  | none => none
  | some nd => some (updA g nid (updA nd fld v))

/-! ## Job input and the handler's pure core (`handler.py`, lines 178-265) -/

/-- One element of the job input's `lora_pairs` list (`handler.py` lines
251-255): a dict read with `get("high")`, `get("low")`,
`get("high_weight", 1.0)`, `get("low_weight", 1.0)`. -/
structure LoraPair where
  high : Option String
  low : Option String
  high_weight : Rat
  low_weight : Rat
  deriving Repr, DecidableEq

/-- The `job["input"]` dict as read by `handler` (`handler.py` lines
180-246).  `none` models an absent key; a key present with JSON `null` is
not distinguished for string fields other than the image sources, which
the handler only tests for key presence (`"image_path" in job_input`). -/
structure JobInput where
  task : Option String
  prompt : Option String
  num_frames : Option Int
  steps : Option Int
  seed : Option Int
  cfg : Option Rat
  width : Option Int
  height : Option Int
  context_overlap : Option Int
  image_path : Option String
  image_url : Option String
  image_base64 : Option String
  lora_pairs : List LoraPair
  deriving Repr, DecidableEq

/-- The image-input source the handler selects for an I2V task. -/
inductive ImageSource where
  | path (s : String)
  | url (s : String)
  | base64 (s : String)
  deriving Repr, DecidableEq

/-- The handler's image-source selection (`handler.py` lines 186-198):
for `task == "i2v"` an `if/elif/elif/else` chain keyed on the presence of
`image_path`, `image_url`, `image_base64` (in that fixed priority order)
picks a single source, and raises when none of the three keys is present;
for any other task no image source is used. -/
def selectImageSource (j : JobInput) : Except String (Option ImageSource) :=
  if j.task.getD "t2v" = "i2v" then
    match j.image_path with
    | some p => Except.ok (some (ImageSource.path p))
    | none =>
      match j.image_url with
      | some u => Except.ok (some (ImageSource.url u))
      | none =>
        match j.image_base64 with
        | some b => Except.ok (some (ImageSource.base64 b))
        | none =>
          Except.error
            "For I2V task, provide one of: image_path, image_url, or image_base64"
  else Except.ok none

/-- Python truthiness of an optional string (`if image_path:`,
`if lora_high:`): `None` and the empty string are falsy. -/
def truthy : Option String → Bool
  | none => false
  | some s => !s.isEmpty

/-- `lowsteps = int(steps * 0.6)` (`handler.py` line 241).  Modelled as
exact rational arithmetic truncated toward zero; this agrees with the
Python float computation for all step magnitudes used here (in particular
on the whole validated range `[1, 50]`). -/
def lowstepsOf (steps : Int) : Int := Int.tdiv (3 * steps) 5

/-- LoRA application for one pair at position `i` (`handler.py` lines
251-265): writes `lora_{i+1}` / `strength_{i+1}` into node `"279"` when
the `high` name is truthy, and into node `"553"` when the `low` name is
truthy. -/
def applyLoraPair (g : Graph) (i : Nat) (lp : LoraPair) : Option Graph :=
  (if truthy lp.high then
    (setField g "279" ("lora_" ++ toString (i + 1))
        (GValue.str (lp.high.getD ""))).bind fun g =>
      setField g "279" ("strength_" ++ toString (i + 1)) (GValue.rat lp.high_weight)
  else some g).bind fun g =>
  if truthy lp.low then
    (setField g "553" ("lora_" ++ toString (i + 1))
        (GValue.str (lp.low.getD ""))).bind fun g =>
      setField g "553" ("strength_" ++ toString (i + 1)) (GValue.rat lp.low_weight)
  else some g

/-- The `for i, lora_pair in enumerate(lora_pairs[:4])` loop body chain. -/
def applyLoraPairs : Graph → Nat → List LoraPair → Option Graph
  | g, _, [] => some g
  | g, i, lp :: rest =>
    (applyLoraPair g i lp).bind fun g => applyLoraPairs g (i + 1) rest

/-- `handler.py` lines 246-265: `if lora_pairs:` then apply the first 4
pairs with 1-based indexed field names. -/
def applyLoras (pairs : List LoraPair) (g : Graph) : Option Graph :=
  if pairs.isEmpty then some g else applyLoraPairs g 0 (pairs.take 4)

/-- The workflow-patching portion of `handler` (`handler.py` lines
205-265): defaulted parameter reads (`num_frames` 81, `steps` 10, `seed`
42, `cfg` 2.0, `prompt` "A beautiful video", `width` 480, `height` 832,
`context_overlap` 48) written to the fixed node ids, the image path for
I2V, the rounded resolution, the step count (guarded by `"834" in
prompt`) with its derived low step count, and the LoRA pairs.  `none`
models a `KeyError` on a missing node. -/
def applyParams (j : JobInput) (image_path : Option String) (g0 : Graph) :
    Option Graph :=
  let length := j.num_frames.getD 81
  let steps := j.steps.getD 10
  let seed := j.seed.getD 42
  let cfg := j.cfg.getD 2
  let adjusted_width := to_nearest_multiple_of_16 (j.width.getD 480)
  let adjusted_height := to_nearest_multiple_of_16 (j.height.getD 832)
  (if j.task.getD "t2v" = "i2v" ∧ truthy image_path then
    setField g0 "244" "image" (GValue.str (image_path.getD ""))
  else some g0).bind fun g =>
  (setField g "541" "num_frames" (GValue.int length)).bind fun g =>
  (setField g "135" "positive_prompt"
    (GValue.str (j.prompt.getD "A beautiful video"))).bind fun g =>
  (setField g "220" "seed" (GValue.int seed)).bind fun g =>
  (setField g "540" "seed" (GValue.int seed)).bind fun g =>
  (setField g "540" "cfg" (GValue.rat cfg)).bind fun g =>
  (setField g "235" "value" (GValue.int adjusted_width)).bind fun g =>
  (setField g "236" "value" (GValue.int adjusted_height)).bind fun g =>
  (setField g "498" "context_overlap"
    (GValue.int (j.context_overlap.getD 48))).bind fun g =>
  (if hasNode g "834" then
    (setField g "834" "steps" (GValue.int steps)).bind fun g =>
      setField g "829" "step" (GValue.int (lowstepsOf steps))
  else some g).bind fun g =>
  applyLoras j.lora_pairs g

/-! ## The HTTP connection probe (`handler.py`, lines 271-284) -/

/-- `max_http_attempts = 180` (`handler.py` line 275). -/
def max_http_attempts : Nat := 180

/-- The `try:` body of one iteration of the HTTP probe loop
(`handler.py` lines 277-279).  The body consists solely of a log
statement and `break`: no HTTP request to `http_url` is ever issued, so
the body cannot raise and always breaks.  `reachable` models whether an
HTTP request on a given attempt would have succeeded; the code never
consults it.  Returns `true` when the body runs to its `break`. -/
def httpProbeTryBody (reachable : Nat → Bool) (attempt : Nat) : Bool := true

/-- The `for http_attempt in range(max_http_attempts):` loop
(`handler.py` lines 276-284), with `fuel` the number of remaining
iterations: if the try-body breaks the loop ends successfully after
`attempt + 1` attempts; on an exception the loop raises when the attempt
was the last one and otherwise sleeps 1 second and retries. -/
def httpProbeLoop (reachable : Nat → Bool) (attempt : Nat) : Nat → Except String Nat
  | 0 => Except.ok 0
  | fuel + 1 =>
    if httpProbeTryBody reachable attempt then Except.ok (attempt + 1)
    else if attempt + 1 = max_http_attempts then
      Except.error "Cannot connect to ComfyUI server. Check if server is running."
    else httpProbeLoop reachable (attempt + 1) fuel

/-- The whole HTTP reachability check before the websocket connect
(`handler.py` lines 271-284): `Except.ok k` means the handler proceeded
after `k` attempts, `Except.error` the fatal connection exception. -/
def httpProbe (reachable : Nat → Bool) : Except String Nat :=
  httpProbeLoop reachable 0 max_http_attempts

/-! ## The completion-poll loop (`handler.py`, `get_videos`, lines 100-128) -/

/-- One frame received from `ws.recv()`: either a non-text (binary)
frame, or a text frame parsed as JSON.  For a text frame we carry the
`type` field and the `data.node` / `data.prompt_id` fields; the latter
two are only inspected when `type == "executing"`. -/
inductive WsFrame where
  | binary (payloadLen : Nat)
  | text (msgType : String) (node : Option String) (promptId : String)
  deriving Repr, DecidableEq

/-- The completion sentinel test of `get_videos` (`handler.py` lines
107-112): a text frame whose `type` is `"executing"` with `data.node is
None` and `data.prompt_id` equal to the submitted prompt id. -/
def isCompletionSentinel (pid : String) : WsFrame → Bool
  | WsFrame.binary _ => false
  | WsFrame.text t nd mp => t = "executing" ∧ nd = none ∧ mp = pid

/-- The `while True: out = ws.recv() ...` loop of `get_videos`
(`handler.py` lines 105-114), run against a stream prefix: returns the
index of the frame that triggered the `break`, or `none` when the stream
prefix is exhausted without a completion sentinel (the real loop would
keep blocking on `ws.recv()`). -/
def pollLoop (pid : String) : List WsFrame → Option Nat
  | [] => none
  | f :: fs =>
    match isCompletionSentinel pid f with
    | true => some 0
    | false => (pollLoop pid fs).map (· + 1)

/-! ## The cleanup tracker (`src/utils/cleanup_manager.py`) -/

/-- What the filesystem holds at a path. -/
inductive EntryKind where
  | missing
  | file
  | dir
  deriving Repr, DecidableEq

/-- An abstract filesystem: what each path holds (`exists()` /
`is_file()` / `is_dir()`), which paths' removal raises an `OSError`
(`unlink` / `shutil.rmtree` failing), and `Path.resolve`
canonicalization. -/
structure FS where
  entries : String → EntryKind
  undeletable : String → Bool
  resolve : String → String

/-- The `CleanupManager` state (`cleanup_manager.py` lines 10-18): the
two registration sets (modelled as duplicate-free lists) and the
`cleanup_on_exit` flag. -/
structure CleanupManager where
  directories_to_cleanup : List String
  files_to_cleanup : List String
  cleanup_on_exit : Bool

/-- `CleanupManager.__init__`: both sets empty, exit cleanup enabled. -/
def cleanupManagerInit : CleanupManager :=
  { directories_to_cleanup := [], files_to_cleanup := [], cleanup_on_exit := true }

/-- Python `set.add` on the list model: append if absent. -/
def addToSet (l : List String) (p : String) : List String :=
  if p ∈ l then l else l ++ [p]

/-- `CleanupManager.add_file` (`cleanup_manager.py` lines 25-28): only a
currently existing path is registered (resolved). -/
def add_file (fs : FS) (m : CleanupManager) (p : String) : CleanupManager :=
  if fs.entries p ≠ EntryKind.missing then
    { m with files_to_cleanup := addToSet m.files_to_cleanup (fs.resolve p) }
  else m

/-- `CleanupManager.add_directory` (`cleanup_manager.py` lines 20-23). -/
def add_directory (fs : FS) (m : CleanupManager) (p : String) : CleanupManager :=
  if fs.entries p ≠ EntryKind.missing then
    { m with directories_to_cleanup := addToSet m.directories_to_cleanup (fs.resolve p) }
  else m

/-- `startsWithList s t`: the character list `s` begins with `t`. -/
def startsWithList : List Char → List Char → Bool
  | _, [] => true
  | [], _ :: _ => false
  | a :: s, b :: t => decide (a = b) && startsWithList s t

/-- `q` lies strictly inside the directory `dir`: its path begins with
`dir` followed by a path separator. -/
def pathUnder (dir q : String) : Bool :=
  startsWithList q.data (dir.data ++ ['/'])

/-- The set of paths deleted by a successful removal of `p` by the
`kind`-specific removal call: `Path.unlink` removes exactly the file `p`,
while `shutil.rmtree` removes the directory `p` together with everything
beneath it. -/
def removesPath (kind : EntryKind) (p q : String) : Bool :=
  match kind with
  | EntryKind.dir => decide (q = p) || pathUnder p q
  | _ => decide (q = p)

/-- `CleanupManager._cleanup_file` / `_cleanup_directory`
(`cleanup_manager.py` lines 63-89), parameterized by the entry kind the
method removes: if the path holds an entry of that kind, remove it
(`unlink` / `rmtree`), returning `False` and leaving the filesystem
unchanged when the removal raises; a path that is missing or of another
kind counts as success.  A successful `rmtree` removes the directory and
recursively everything beneath it (`removesPath`).  `fs.undeletable`
abstracts "a removal call on this path raises"; paths so flagged survive
a recursive removal (in a realizable filesystem a flagged descendant
also flags every ancestor, since `rmtree` on the ancestor would raise —
the theorems hold for all flag assignments, realizable or not). -/
def cleanupEntryOp (kind : EntryKind) (fs : FS) (p : String) : Bool × FS :=
  if fs.entries p = kind then
    if fs.undeletable p then (false, fs)
    else
      (true,
       { fs with entries := fun q =>
          (if removesPath kind p q = true ∧ fs.undeletable q = false
           then EntryKind.missing else fs.entries q) })
  else (true, fs)

/-- One of the two `for ... in list(...)` loops of `cleanup_all`
(`cleanup_manager.py` lines 44-47 and 50-53): iterate over a snapshot,
discarding each successfully cleaned path from the live pending set. -/
def runCleanupList (op : FS → String → Bool × FS) :
    List String → FS → List String → FS × List String
  | [], fs, pending => (fs, pending)
  | p :: rest, fs, pending =>
    let r := op fs p
    runCleanupList op rest r.2
      (if r.1 then pending.filter (fun q => q ≠ p) else pending)

/-- `CleanupManager.cleanup_all` (`cleanup_manager.py` lines 40-55):
the files loop, then the directories loop. -/
def cleanup_all (fs : FS) (m : CleanupManager) : FS × CleanupManager :=
  let fr := runCleanupList (cleanupEntryOp EntryKind.file)
    m.files_to_cleanup fs m.files_to_cleanup
  let dr := runCleanupList (cleanupEntryOp EntryKind.dir)
    m.directories_to_cleanup fr.1 m.directories_to_cleanup
  (dr.1, { m with files_to_cleanup := fr.2, directories_to_cleanup := dr.2 })

/-- The numeric part of `CleanupManager.get_cleanup_stats`
(`cleanup_manager.py` lines 104-111). -/
structure CleanupStats where
  directories_pending : Nat
  files_pending : Nat
  cleanup_on_exit : Bool
  directories : List String
  files : List String
  deriving Repr, DecidableEq

/-- `CleanupManager.get_cleanup_stats`. -/
def get_cleanup_stats (m : CleanupManager) : CleanupStats :=
  { directories_pending := m.directories_to_cleanup.length,
    files_pending := m.files_to_cleanup.length,
    cleanup_on_exit := m.cleanup_on_exit,
    directories := m.directories_to_cleanup,
    files := m.files_to_cleanup }

/-- A removal attempt on `q` would fail (raise): the path currently holds
an entry of `kind` and its removal raises. -/
def removalFails (kind : EntryKind) (fs : FS) (q : String) : Bool :=
  fs.entries q = kind ∧ fs.undeletable q

/-! ## The result upload (`handler.py`, `upload_output_video`, lines 135-176) -/

/-- The environment values read by `upload_output_video` (`handler.py`
lines 139-144); `none` models an unset variable. -/
structure R2Env where
  bucket : Option String
  endpoint : Option String
  access_key : Option String
  secret : Option String
  upload_directory : Option String
  presigned_expiry : Option String
  deriving Repr, DecidableEq

/-- Digit-sequence parse used to model Python `int(str)`: one or more
decimal digits. -/
def parseDigits (l : List Char) : Option Nat :=
  if l = [] then none
  else if l.all (fun c => c.isDigit) then
    some (l.foldl (fun acc c => acc * 10 + (c.toNat - 48)) 0)
  else none

/-- Models Python `int(s)` on a string: an optional leading minus sign
followed by decimal digits; `none` models the `ValueError` raised on any
other shape (surrounding-whitespace tolerance is elided — no claim
involves it). -/
def parseIntLit (s : String) : Option Int :=
  match s.data with
  | '-' :: ds => (parseDigits ds).map (fun n => -(n : Int))
  | ds => (parseDigits ds).map (fun n => (n : Int))

/-- `upload_output_video` (`handler.py` lines 135-176), abstracted over
the uuid chosen for the object key and over
`generate_presigned_url` (`presign bucket key expiry`; `none` models the
call raising).  `Except.error` models the function raising
(`int(...)` on a malformed `R2_PRESIGNED_EXPIRY`, evaluated on line 144
before the configuration check on line 146); `Except.ok none` is the
skipped upload (`return None`); `Except.ok (some url)` a returned link.
The `s3.put_object` side effect itself is not modelled. -/
def upload_output_video (env : R2Env) (objectUuid : String)
    (presign : String → String → Int → Option String) :
    Except String (Option String) :=
  let upload_directory := env.upload_directory.getD "video-outputs"
  match parseIntLit (env.presigned_expiry.getD "86400") with
  | none => Except.error "invalid literal for int() with base 10"
  | some expiration_seconds =>
    if truthy env.bucket ∧ truthy env.endpoint ∧
        truthy env.access_key ∧ truthy env.secret then
      let bucket := env.bucket.getD ""
      let endpoint := env.endpoint.getD ""
      let object_key := upload_directory ++ "/" ++ objectUuid ++ ".mp4"
      match presign bucket object_key expiration_seconds with
      | some url => Except.ok (some url)
      | none => Except.ok (some (endpoint ++ "/" ++ bucket ++ "/" ++ object_key))
    else Except.ok none

/-! ## Concrete sample inputs (used to instantiate the theorems) -/

/-- A job input with every key absent. -/
def emptyJob : JobInput :=
  { task := none, prompt := none, num_frames := none, steps := none,
    seed := none, cfg := none, width := none, height := none,
    context_overlap := none, image_path := none, image_url := none,
    image_base64 := none, lora_pairs := [] }

/-- A minimal workflow graph holding every node id the handler patches. -/
def gW : Graph :=
  [("135", [("positive_prompt", GValue.str "")]),
   ("220", [("seed", GValue.int 0)]),
   ("235", [("value", GValue.int 0)]),
   ("236", [("value", GValue.int 0)]),
   ("244", [("image", GValue.str "")]),
   ("498", [("context_overlap", GValue.int 0)]),
   ("540", [("seed", GValue.int 0), ("cfg", GValue.rat 0)]),
   ("541", [("num_frames", GValue.int 0)]),
   ("829", [("step", GValue.int 0)]),
   ("834", [("steps", GValue.int 0)]),
   ("279", []),
   ("553", [])]

/-- A job input whose `num_frames` and `steps` lie far outside the
validator ranges `[1, 300]` and `[1, 50]`. -/
def jOutOfRange : JobInput :=
  { emptyJob with
    num_frames := some 1000
    steps := some 99
    seed := some (-7)
    cfg := some (7 / 2 : Rat) }

/-- A job input with the non-canonical resolution 100x50. -/
def jSmallRes : JobInput :=
  { emptyJob with width := some 100, height := some 50 }

/-- An I2V job input carrying two image sources at once. -/
def jTwoSources : JobInput :=
  { emptyJob with
    task := some "i2v"
    image_path := some "/tmp/input.jpg"
    image_url := some "http://example.com/a.jpg" }

/-- An I2V job input carrying only inline base64 bytes. -/
def jOnlyBase64 : JobInput :=
  { emptyJob with task := some "i2v", image_base64 := some "QUJD" }

/-- An I2V job input carrying no image source at all. -/
def jNoSource : JobInput := { emptyJob with task := some "i2v" }

/-- A filesystem holding one file `a.tmp` whose removal raises. -/
def fsUndeletableA : FS :=
  { entries := fun q => if q = "a.tmp" then EntryKind.file else EntryKind.missing,
    undeletable := fun q => q = "a.tmp",
    resolve := id }

/-- A tracker that registered exactly the file `a.tmp`. -/
def mSingleFile : CleanupManager :=
  { directories_to_cleanup := [], files_to_cleanup := ["a.tmp"],
    cleanup_on_exit := true }

/-- A filesystem holding one removable file `f1` and one removable
directory `d1`. -/
def fsClean : FS :=
  { entries := fun q =>
      if q = "f1" then EntryKind.file
      else if q = "d1" then EntryKind.dir
      else EntryKind.missing,
    undeletable := fun _ => false,
    resolve := id }

/-- A tracker that registered the file `f1` and the directory `d1`. -/
def mFileAndDir : CleanupManager :=
  { directories_to_cleanup := ["d1"], files_to_cleanup := ["f1"],
    cleanup_on_exit := true }

/-- A filesystem with nothing on disk. -/
def fsAllMissing : FS :=
  { entries := fun _ => EntryKind.missing, undeletable := fun _ => false,
    resolve := id }

/-- A filesystem where the registered temp directory `/tmp/job` exists
and a file was created inside it after registration. -/
def fsLate : FS :=
  { entries := fun q =>
      if q = "/tmp/job" then EntryKind.dir
      else if q = "/tmp/job/late.png" then EntryKind.file
      else EntryKind.missing,
    undeletable := fun _ => false,
    resolve := id }

/-- A tracker that registered only the directory `/tmp/job`. -/
def mJobDir : CleanupManager :=
  { directories_to_cleanup := ["/tmp/job"], files_to_cleanup := [],
    cleanup_on_exit := true }

/-- Storage environment with the bucket unset and a malformed
`R2_PRESIGNED_EXPIRY`. -/
def envBadExpiry : R2Env :=
  { bucket := none, endpoint := some "https://acc.r2.example",
    access_key := some "k", secret := some "s", upload_directory := none,
    presigned_expiry := some "not-a-number" }

/-- Storage environment with the bucket unset (other values present,
expiry left at its default). -/
def envMissingBucket : R2Env :=
  { bucket := none, endpoint := some "https://acc.r2.example",
    access_key := some "k", secret := some "s", upload_directory := none,
    presigned_expiry := none }

/-- Fully configured storage environment. -/
def envFull : R2Env :=
  { bucket := some "videos", endpoint := some "https://acc.r2.example",
    access_key := some "k", secret := some "s", upload_directory := none,
    presigned_expiry := none }

/-- A `generate_presigned_url` that always raises. -/
def presignRaises : String → String → Int → Option String := fun _ _ _ => none

/-! ## Association-list and graph-patching lemmas -/

theorem lookupA_updA {α : Type} (l : List (String × α)) (k k' : String) (v : α) :
    lookupA (updA l k v) k' = if k' = k then some v else lookupA l k' := by
  induction l with
  | nil =>
    by_cases h : k' = k <;> simp [updA, lookupA, h]
    · intro h2; exact absurd h2.symm h
  | cons hd tl ih =>
    obtain ⟨k0, v0⟩ := hd
    by_cases h : k0 = k
    · subst h
      by_cases h2 : k' = k0
      · simp [updA, lookupA, h2]
      · have h3 : ¬ k0 = k' := fun he => h2 he.symm
        simp [updA, lookupA, h2, h3]
    · by_cases h2 : k0 = k'
      · have h3 : ¬ k' = k := fun he => h (h2.trans he)
        simp [updA, lookupA, h, h2, h3]
      · simp [updA, lookupA, h, h2, ih]

theorem setField_eq_some {g g' : Graph} {nid fld : String} {v : GValue}
    (h : setField g nid fld v = some g') :
    ∃ nd, lookupA g nid = some nd ∧ g' = updA g nid (updA nd fld v) := by
  unfold setField at h
  cases hl : lookupA g nid with
  | none => rw [hl] at h; exact absurd h (by simp)
  | some nd =>
    rw [hl] at h
    simp only [Option.some.injEq] at h
    exact ⟨nd, rfl, h.symm⟩

theorem getField_setField_same {g g' : Graph} {nid fld : String} {v : GValue}
    (h : setField g nid fld v = some g') :
    getField g' nid fld = some v := by
  obtain ⟨nd, hnd, rfl⟩ := setField_eq_some h
  simp [getField, lookupA_updA]

theorem getField_setField_frame {g g' : Graph} {nid fld : String} {v : GValue}
    (nid' fld' : String) (h : setField g nid fld v = some g')
    (hne : nid' ≠ nid ∨ fld' ≠ fld) :
    getField g' nid' fld' = getField g nid' fld' := by
  obtain ⟨nd, hnd, rfl⟩ := setField_eq_some h
  rcases hne with hne | hne
  · simp [getField, lookupA_updA, hne]
  · by_cases hn : nid' = nid
    · subst hn; simp [getField, lookupA_updA, hne, hnd]
    · simp [getField, lookupA_updA, hn]

theorem hasNode_setField {g g' : Graph} {nid fld : String} {v : GValue}
    (m : String) (h : setField g nid fld v = some g') :
    hasNode g' m = hasNode g m := by
  obtain ⟨nd, hnd, rfl⟩ := setField_eq_some h
  by_cases hm : m = nid
  · subst hm; simp [hasNode, lookupA_updA, hnd]
  · simp [hasNode, lookupA_updA, hm]

theorem applyLoraPair_frame {g g' : Graph} {i : Nat} {lp : LoraPair}
    (h : applyLoraPair g i lp = some g') (n f : String)
    (h1 : n ≠ "279") (h2 : n ≠ "553") :
    getField g' n f = getField g n f := by
  simp only [applyLoraPair, Option.pure_def, Option.bind_eq_some] at h
  obtain ⟨g1, hg1, hg2⟩ := h
  have s1 : getField g1 n f = getField g n f := by
    split at hg1
    · simp only [Option.bind_eq_some] at hg1
      obtain ⟨ga, ha, hb⟩ := hg1
      rw [getField_setField_frame n f hb (Or.inl h1),
        getField_setField_frame n f ha (Or.inl h1)]
    · simp only [Option.some.injEq] at hg1; rw [← hg1]
  have s2 : getField g' n f = getField g1 n f := by
    split at hg2
    · simp only [Option.bind_eq_some] at hg2
      obtain ⟨ga, ha, hb⟩ := hg2
      rw [getField_setField_frame n f hb (Or.inl h2),
        getField_setField_frame n f ha (Or.inl h2)]
    · simp only [Option.some.injEq] at hg2; rw [← hg2]
  rw [s2, s1]

theorem applyLoraPairs_frame {ps : List LoraPair} :
    ∀ {g g' : Graph} {i : Nat}, applyLoraPairs g i ps = some g' →
    ∀ n f, n ≠ "279" → n ≠ "553" → getField g' n f = getField g n f := by
  induction ps with
  | nil =>
    intro g g' i h n f h1 h2
    simp only [applyLoraPairs, Option.some.injEq] at h
    rw [← h]
  | cons lp rest ih =>
    intro g g' i h n f h1 h2
    simp only [applyLoraPairs, Option.bind_eq_some] at h
    obtain ⟨g1, hg1, hrest⟩ := h
    rw [ih hrest n f h1 h2, applyLoraPair_frame hg1 n f h1 h2]

theorem applyLoras_frame {ps : List LoraPair} {g g' : Graph}
    (h : applyLoras ps g = some g') (n f : String)
    (h1 : n ≠ "279") (h2 : n ≠ "553") :
    getField g' n f = getField g n f := by
  unfold applyLoras at h
  split at h
  · simp only [Option.some.injEq] at h; rw [← h]
  · exact applyLoraPairs_frame h n f h1 h2

/-- After a successful `applyParams`, each parameter node holds exactly
the (defaulted) value read from the job input — unchanged, with no range
check anywhere on the way. -/
theorem applyParams_spec {j : JobInput} {ip : Option String} {g g' : Graph}
    (h : applyParams j ip g = some g') :
    getField g' "541" "num_frames" = some (GValue.int (j.num_frames.getD 81)) ∧
    getField g' "220" "seed" = some (GValue.int (j.seed.getD 42)) ∧
    getField g' "540" "seed" = some (GValue.int (j.seed.getD 42)) ∧
    getField g' "540" "cfg" = some (GValue.rat (j.cfg.getD 2)) ∧
    getField g' "235" "value" =
      some (GValue.int (to_nearest_multiple_of_16 (j.width.getD 480))) ∧
    getField g' "236" "value" =
      some (GValue.int (to_nearest_multiple_of_16 (j.height.getD 832))) ∧
    (hasNode g "834" = true →
      getField g' "834" "steps" = some (GValue.int (j.steps.getD 10))) := by
  simp only [applyParams, Option.bind_eq_some] at h
  obtain ⟨g1, hg1, h⟩ := h
  obtain ⟨g2, hg2, h⟩ := h
  obtain ⟨g3, hg3, h⟩ := h
  obtain ⟨g4, hg4, h⟩ := h
  obtain ⟨g5, hg5, h⟩ := h
  obtain ⟨g6, hg6, h⟩ := h
  obtain ⟨g7, hg7, h⟩ := h
  obtain ⟨g8, hg8, h⟩ := h
  obtain ⟨g9, hg9, h⟩ := h
  obtain ⟨g10, hg10, hLora⟩ := h
  have hg1' : g1 = g ∨
      setField g "244" "image" (GValue.str (ip.getD "")) = some g1 := by
    split at hg1
    · exact Or.inr hg1
    · simp only [Option.some.injEq] at hg1; exact Or.inl hg1.symm
  have hn0 : ∀ m, hasNode g1 m = hasNode g m := by
    intro m
    rcases hg1' with rfl | hs
    · rfl
    · exact hasNode_setField m hs
  have f1 : ∀ n f, n ≠ "541" → getField g2 n f = getField g1 n f :=
    fun n f hn => getField_setField_frame n f hg2 (Or.inl hn)
  have f2 : ∀ n f, n ≠ "135" → getField g3 n f = getField g2 n f :=
    fun n f hn => getField_setField_frame n f hg3 (Or.inl hn)
  have f3 : ∀ n f, n ≠ "220" → getField g4 n f = getField g3 n f :=
    fun n f hn => getField_setField_frame n f hg4 (Or.inl hn)
  have f4 : ∀ n f, (n ≠ "540" ∨ f ≠ "seed") → getField g5 n f = getField g4 n f :=
    fun n f hn => getField_setField_frame n f hg5 hn
  have f5 : ∀ n f, (n ≠ "540" ∨ f ≠ "cfg") → getField g6 n f = getField g5 n f :=
    fun n f hn => getField_setField_frame n f hg6 hn
  have f6 : ∀ n f, n ≠ "235" → getField g7 n f = getField g6 n f :=
    fun n f hn => getField_setField_frame n f hg7 (Or.inl hn)
  have f7 : ∀ n f, n ≠ "236" → getField g8 n f = getField g7 n f :=
    fun n f hn => getField_setField_frame n f hg8 (Or.inl hn)
  have f8 : ∀ n f, n ≠ "498" → getField g9 n f = getField g8 n f :=
    fun n f hn => getField_setField_frame n f hg9 (Or.inl hn)
  have hn9 : hasNode g9 "834" = hasNode g "834" := by
    rw [hasNode_setField _ hg9, hasNode_setField _ hg8, hasNode_setField _ hg7,
      hasNode_setField _ hg6, hasNode_setField _ hg5, hasNode_setField _ hg4,
      hasNode_setField _ hg3, hasNode_setField _ hg2, hn0]
  have f9 : ∀ n f, n ≠ "834" → n ≠ "829" → getField g10 n f = getField g9 n f := by
    intro n f h1 h2
    split at hg10
    · simp only [Option.bind_eq_some] at hg10
      obtain ⟨ga, ha, hb⟩ := hg10
      rw [getField_setField_frame n f hb (Or.inl h2),
        getField_setField_frame n f ha (Or.inl h1)]
    · simp only [Option.some.injEq] at hg10; rw [← hg10]
  have f10 : ∀ n f, n ≠ "279" → n ≠ "553" → getField g' n f = getField g10 n f :=
    fun n f h1 h2 => applyLoras_frame hLora n f h1 h2
  refine ⟨?_, ?_, ?_, ?_, ?_, ?_, ?_⟩
  · rw [f10 _ _ (by decide) (by decide), f9 _ _ (by decide) (by decide),
      f8 _ _ (by decide), f7 _ _ (by decide), f6 _ _ (by decide),
      f5 _ _ (Or.inl (by decide)), f4 _ _ (Or.inl (by decide)),
      f3 _ _ (by decide), f2 _ _ (by decide)]
    exact getField_setField_same hg2
  · rw [f10 _ _ (by decide) (by decide), f9 _ _ (by decide) (by decide),
      f8 _ _ (by decide), f7 _ _ (by decide), f6 _ _ (by decide),
      f5 _ _ (Or.inl (by decide)), f4 _ _ (Or.inl (by decide))]
    exact getField_setField_same hg4
  · rw [f10 _ _ (by decide) (by decide), f9 _ _ (by decide) (by decide),
      f8 _ _ (by decide), f7 _ _ (by decide), f6 _ _ (by decide),
      f5 _ _ (Or.inr (by decide))]
    exact getField_setField_same hg5
  · rw [f10 _ _ (by decide) (by decide), f9 _ _ (by decide) (by decide),
      f8 _ _ (by decide), f7 _ _ (by decide), f6 _ _ (by decide)]
    exact getField_setField_same hg6
  · rw [f10 _ _ (by decide) (by decide), f9 _ _ (by decide) (by decide),
      f8 _ _ (by decide), f7 _ _ (by decide)]
    exact getField_setField_same hg7
  · rw [f10 _ _ (by decide) (by decide), f9 _ _ (by decide) (by decide),
      f8 _ _ (by decide)]
    exact getField_setField_same hg8
  · intro h834
    have hcond : hasNode g9 "834" = true := by rw [hn9]; exact h834
    rw [if_pos hcond] at hg10
    simp only [Option.bind_eq_some] at hg10
    obtain ⟨ga, ha, hb⟩ := hg10
    rw [f10 _ _ (by decide) (by decide),
      getField_setField_frame _ _ hb (Or.inl (by decide))]
    exact getField_setField_same ha

/-! ## Rounding lemmas -/

theorem roundHalfEven16_cases (n : Int) :
    (n % 16 < 8 ∧ roundHalfEven16 n = n / 16) ∨
    (8 < n % 16 ∧ roundHalfEven16 n = n / 16 + 1) ∨
    (n % 16 = 8 ∧ (roundHalfEven16 n = n / 16 ∨ roundHalfEven16 n = n / 16 + 1)) := by
  unfold roundHalfEven16
  split_ifs with h1 h2 h3
  · exact Or.inl ⟨h1, rfl⟩
  · exact Or.inr (Or.inl ⟨h2, rfl⟩)
  · exact Or.inr (Or.inr ⟨by omega, Or.inl rfl⟩)
  · exact Or.inr (Or.inr ⟨by omega, Or.inr rfl⟩)

theorem roundHalfEven16_nearest (n m : Int) (hm : 16 ∣ m) :
    |roundHalfEven16 n * 16 - n| ≤ |m - n| := by
  obtain ⟨k, rfl⟩ := hm
  rcases abs_cases (roundHalfEven16 n * 16 - n) with ⟨e1, _⟩ | ⟨e1, _⟩ <;>
    rcases abs_cases (16 * k - n) with ⟨e2, _⟩ | ⟨e2, _⟩ <;>
    rw [e1, e2] <;>
    rcases roundHalfEven16_cases n with ⟨h, hR⟩ | ⟨h, hR⟩ | ⟨h, hR | hR⟩ <;>
    rw [hR] <;> omega

theorem roundHalfEven16_bounds (n : Int) :
    n - 8 ≤ roundHalfEven16 n * 16 ∧ roundHalfEven16 n * 16 ≤ n + 8 := by
  rcases roundHalfEven16_cases n with ⟨h, hR⟩ | ⟨h, hR⟩ | ⟨h, hR | hR⟩ <;>
    rw [hR] <;> omega

theorem to16_dvd (n : Int) : 16 ∣ to_nearest_multiple_of_16 n := by
  simp only [to_nearest_multiple_of_16]
  split_ifs
  · decide
  · exact ⟨roundHalfEven16 n, mul_comm _ _⟩

theorem to16_ge (n : Int) : 16 ≤ to_nearest_multiple_of_16 n := by
  simp only [to_nearest_multiple_of_16]
  split_ifs with h
  · omega
  · omega

theorem to16_fixed (n : Int) (h1 : 16 ∣ n) (h2 : 16 ≤ n) :
    to_nearest_multiple_of_16 n = n := by
  obtain ⟨k, rfl⟩ := h1
  have hR : roundHalfEven16 (16 * k) = k := by
    rcases roundHalfEven16_cases (16 * k) with ⟨h, hR⟩ | ⟨h, hR⟩ | ⟨h, hR | hR⟩ <;>
      omega
  simp only [to_nearest_multiple_of_16, hR]
  rw [if_neg (by omega)]
  omega

theorem to16_floor (n : Int) (h : n ≤ 0) : to_nearest_multiple_of_16 n = 16 := by
  have hb := roundHalfEven16_bounds n
  simp only [to_nearest_multiple_of_16]
  rw [if_pos (by omega)]

theorem to16_nearest (n m : Int) (hm : 16 ∣ m) (hm16 : 16 ≤ m) :
    |to_nearest_multiple_of_16 n - n| ≤ |m - n| := by
  simp only [to_nearest_multiple_of_16]
  split_ifs with h
  · -- the rounded multiple was below 16, so it is ≤ 0 and n ≤ 8
    have hb := roundHalfEven16_bounds n
    have hd : 16 ∣ roundHalfEven16 n * 16 := Dvd.intro_left _ rfl
    have hle : roundHalfEven16 n * 16 ≤ 0 := by
      rcases hd with ⟨c, hc⟩; omega
    have hn8 : n ≤ 8 := by omega
    rcases abs_cases ((16 : Int) - n) with ⟨e1, _⟩ | ⟨e1, _⟩ <;>
      rcases abs_cases (m - n) with ⟨e2, _⟩ | ⟨e2, _⟩ <;> rw [e1, e2] <;> omega
  · exact roundHalfEven16_nearest n m hm

theorem to16_idem (n : Int) :
    to_nearest_multiple_of_16 (to_nearest_multiple_of_16 n) =
      to_nearest_multiple_of_16 n :=
  to16_fixed _ (to16_dvd n) (to16_ge n)

/-! ## Completion-poll lemmas -/

theorem pollLoop_iff (pid : String) (l : List WsFrame) (i : Nat) :
    pollLoop pid l = some i ↔
      ((∃ f, l[i]? = some f ∧ isCompletionSentinel pid f = true) ∧
       ∀ j g, j < i → l[j]? = some g → isCompletionSentinel pid g = false) := by
  induction l generalizing i with
  | nil => simp [pollLoop]
  | cons f fr ih =>
    cases hx : isCompletionSentinel pid f with
    | true =>
      cases i with
      | zero =>
        simp only [pollLoop, hx]
        constructor
        · intro _
          exact ⟨⟨f, by simp, hx⟩, fun j g hj _ => absurd hj (Nat.not_lt_zero j)⟩
        · intro _; trivial
      | succ i =>
        simp only [pollLoop, hx]
        constructor
        · intro h; exact absurd h (by simp)
        · rintro ⟨_, hall⟩
          have hc := hall 0 f (Nat.succ_pos i) (by simp)
          rw [hx] at hc; cases hc
    | false =>
      simp only [pollLoop, hx]
      cases i with
      | zero =>
        constructor
        · intro h
          obtain ⟨a, _, hb⟩ := Option.map_eq_some'.mp h
          exact absurd hb (by omega)
        · rintro ⟨⟨g, hg, hs⟩, _⟩
          rw [List.getElem?_cons_zero] at hg
          injection hg with he
          rw [he] at hx
          rw [hx] at hs
          cases hs
      | succ i =>
        have hstep : ((pollLoop pid fr).map (· + 1) = some (i + 1)) ↔
            pollLoop pid fr = some i := by
          constructor
          · intro h
            obtain ⟨a, ha, hb⟩ := Option.map_eq_some'.mp h
            have hai : a = i := by omega
            rwa [hai] at ha
          · intro h; rw [h]; rfl
        rw [hstep, ih i]
        constructor
        · rintro ⟨⟨g, hg, hs⟩, hall⟩
          refine ⟨⟨g, ?_, hs⟩, ?_⟩
          · rw [List.getElem?_cons_succ]; exact hg
          · intro j g' hj hg'
            cases j with
            | zero =>
              rw [List.getElem?_cons_zero] at hg'
              injection hg' with he
              rw [← he]; exact hx
            | succ j =>
              rw [List.getElem?_cons_succ] at hg'
              exact hall j g' (by omega) hg'
        · rintro ⟨⟨g, hg, hs⟩, hall⟩
          rw [List.getElem?_cons_succ] at hg
          refine ⟨⟨g, hg, hs⟩, fun j g' hj hg' => ?_⟩
          exact hall (j + 1) g' (by omega) (by rw [List.getElem?_cons_succ]; exact hg')

/-! ## Cleanup-tracker lemmas -/

theorem bool_eq_of_iff {a b : Bool} (h : a = true ↔ b = true) : a = b := by
  cases a <;> cases b <;> simp_all

theorem removalFails_eq_true {kind : EntryKind} {fs : FS} {q : String} :
    removalFails kind fs q = true ↔
      (fs.entries q = kind ∧ fs.undeletable q = true) := by
  simp [removalFails]

theorem startsWithList_append_left (c : List Char) : ∀ (a b : List Char),
    startsWithList a (b ++ c) = true → startsWithList a b = true := by
  intro a b
  induction b generalizing a with
  | nil => intro _; cases a <;> rfl
  | cons x bs ih =>
    intro h
    cases a with
    | nil => simp [startsWithList] at h
    | cons y as =>
      simp only [List.cons_append, startsWithList, Bool.and_eq_true,
        decide_eq_true_eq] at h ⊢
      exact ⟨h.1, ih as h.2⟩

theorem startsWithList_trans : ∀ (a b c : List Char),
    startsWithList a b = true → startsWithList b c = true →
    startsWithList a c = true := by
  intro a b c
  induction c generalizing a b with
  | nil => intro _ _; cases a <;> rfl
  | cons x cs ih =>
    intro h1 h2
    cases b with
    | nil => simp [startsWithList] at h2
    | cons y bs =>
      cases a with
      | nil => simp [startsWithList] at h1
      | cons z as =>
        simp only [startsWithList, Bool.and_eq_true, decide_eq_true_eq] at h1 h2 ⊢
        exact ⟨h1.1.trans h2.1, ih as bs h1.2 h2.2⟩

theorem pathUnder_trans (a b c : String) (h1 : pathUnder a b = true)
    (h2 : pathUnder b c = true) : pathUnder a c = true := by
  unfold pathUnder at h1 h2 ⊢
  exact startsWithList_trans c.data b.data (a.data ++ ['/'])
    (startsWithList_append_left ['/'] c.data b.data h2) h1

theorem removesPath_trans (kind : EntryKind) (a b c : String)
    (h1 : removesPath kind a b = true) (h2 : removesPath kind b c = true) :
    removesPath kind a c = true := by
  cases kind with
  | dir =>
    simp only [removesPath, Bool.or_eq_true, decide_eq_true_eq] at h1 h2 ⊢
    rcases h1 with rfl | h1
    · exact h2
    · rcases h2 with rfl | h2
      · exact Or.inr h1
      · exact Or.inr (pathUnder_trans a b c h1 h2)
  | file =>
    simp only [removesPath, decide_eq_true_eq] at h1 h2 ⊢
    exact h2.trans h1
  | missing =>
    simp only [removesPath, decide_eq_true_eq] at h1 h2 ⊢
    exact h2.trans h1

theorem cleanupEntryOp_cases (kind : EntryKind) (fs : FS) (p : String) :
    (¬ fs.entries p = kind ∧ cleanupEntryOp kind fs p = (true, fs)) ∨
    (fs.entries p = kind ∧ fs.undeletable p = true ∧
      cleanupEntryOp kind fs p = (false, fs)) ∨
    (fs.entries p = kind ∧ fs.undeletable p = false ∧
      cleanupEntryOp kind fs p =
        (true, { fs with entries := fun q =>
          (if removesPath kind p q = true ∧ fs.undeletable q = false
           then EntryKind.missing else fs.entries q) })) := by
  unfold cleanupEntryOp
  split_ifs with h1 h2
  · exact Or.inr (Or.inl ⟨h1, h2, rfl⟩)
  · exact Or.inr (Or.inr ⟨h1, by rwa [Bool.not_eq_true] at h2, rfl⟩)
  · exact Or.inl ⟨h1, rfl⟩

theorem removalFails_update_inv (kind kind' : EntryKind) (fs : FS) (p q : String) :
    removalFails kind' ({ fs with entries := fun r =>
        (if removesPath kind p r = true ∧ fs.undeletable r = false
         then EntryKind.missing else fs.entries r) } : FS) q =
      removalFails kind' fs q := by
  apply bool_eq_of_iff
  rw [removalFails_eq_true, removalFails_eq_true]
  by_cases hw : removesPath kind p q = true ∧ fs.undeletable q = false
  · constructor
    · rintro ⟨_, hu⟩
      exact absurd (hw.2.symm.trans hu) (by decide)
    · rintro ⟨_, hu⟩
      exact absurd (hw.2.symm.trans hu) (by decide)
  · have he : ({ fs with entries := fun r =>
        (if removesPath kind p r = true ∧ fs.undeletable r = false
         then EntryKind.missing else fs.entries r) } : FS).entries q =
        fs.entries q := by
      show (if removesPath kind p q = true ∧ fs.undeletable q = false
        then EntryKind.missing else fs.entries q) = fs.entries q
      rw [if_neg hw]
    rw [he]

theorem runCleanup_undeletable (kind : EntryKind) (snap : List String) :
    ∀ (fs : FS) (pend : List String),
    (runCleanupList (cleanupEntryOp kind) snap fs pend).1.undeletable =
      fs.undeletable := by
  induction snap with
  | nil => intro fs pend; rfl
  | cons p rest ih =>
    intro fs pend
    simp only [runCleanupList]
    rw [ih]
    rcases cleanupEntryOp_cases kind fs p with ⟨_, he⟩ | ⟨_, _, he⟩ | ⟨_, _, he⟩ <;>
      rw [he]

theorem runCleanup_resolve (kind : EntryKind) (snap : List String) :
    ∀ (fs : FS) (pend : List String),
    (runCleanupList (cleanupEntryOp kind) snap fs pend).1.resolve = fs.resolve := by
  induction snap with
  | nil => intro fs pend; rfl
  | cons p rest ih =>
    intro fs pend
    simp only [runCleanupList]
    rw [ih]
    rcases cleanupEntryOp_cases kind fs p with ⟨_, he⟩ | ⟨_, _, he⟩ | ⟨_, _, he⟩ <;>
      rw [he]

theorem removalFails_run_inv (kind kind' : EntryKind) (snap : List String) :
    ∀ (fs : FS) (pend : List String) (q : String),
    removalFails kind' (runCleanupList (cleanupEntryOp kind) snap fs pend).1 q =
      removalFails kind' fs q := by
  induction snap with
  | nil => intro fs pend q; rfl
  | cons p rest ih =>
    intro fs pend q
    simp only [runCleanupList]
    rcases cleanupEntryOp_cases kind fs p with ⟨h1, he⟩ | ⟨h1, h2, he⟩ | ⟨h1, h2, he⟩ <;>
      rw [he]
    · exact ih fs _ q
    · exact ih fs _ q
    · rw [ih _ _ q, removalFails_update_inv kind kind' fs p q]

theorem runCleanup_entries (kind : EntryKind) (hk : kind ≠ EntryKind.missing)
    (snap : List String) :
    ∀ (fs : FS) (pend : List String) (q : String),
    (runCleanupList (cleanupEntryOp kind) snap fs pend).1.entries q =
      if fs.undeletable q = false ∧ ∃ p ∈ snap, removesPath kind p q = true ∧
          fs.entries p = kind ∧ fs.undeletable p = false
      then EntryKind.missing else fs.entries q := by
  induction snap with
  | nil =>
    intro fs pend q
    rw [if_neg]
    · rfl
    · rintro ⟨_, p, hp, _⟩
      exact List.not_mem_nil p hp
  | cons p rest ih =>
    intro fs pend q
    rcases cleanupEntryOp_cases kind fs p with ⟨h1, he⟩ | ⟨h1, h2, he⟩ | ⟨h1, h2, he⟩
    · simp only [runCleanupList, he, if_true]
      rw [ih]
      by_cases hc : fs.undeletable q = false ∧ ∃ r ∈ rest, removesPath kind r q = true ∧
          fs.entries r = kind ∧ fs.undeletable r = false
      · rw [if_pos hc, if_pos ⟨hc.1, by
          obtain ⟨r, hr, hx⟩ := hc.2
          exact ⟨r, List.mem_cons_of_mem p hr, hx⟩⟩]
      · rw [if_neg hc, if_neg (fun hcc => hc ⟨hcc.1, by
          obtain ⟨r, hr, hrem, hre, hru⟩ := hcc.2
          rcases List.mem_cons.mp hr with rfl | hr'
          · exact absurd hre h1
          · exact ⟨r, hr', hrem, hre, hru⟩⟩)]
    · simp only [runCleanupList, he, Bool.false_eq_true, if_false]
      rw [ih]
      by_cases hc : fs.undeletable q = false ∧ ∃ r ∈ rest, removesPath kind r q = true ∧
          fs.entries r = kind ∧ fs.undeletable r = false
      · rw [if_pos hc, if_pos ⟨hc.1, by
          obtain ⟨r, hr, hx⟩ := hc.2
          exact ⟨r, List.mem_cons_of_mem p hr, hx⟩⟩]
      · rw [if_neg hc, if_neg (fun hcc => hc ⟨hcc.1, by
          obtain ⟨r, hr, hrem, hre, hru⟩ := hcc.2
          rcases List.mem_cons.mp hr with rfl | hr'
          · exact absurd (h2.symm.trans hru) (by decide)
          · exact ⟨r, hr', hrem, hre, hru⟩⟩)]
    · simp only [runCleanupList, he, if_true]
      rw [ih]
      have hent : ∀ r, ({ fs with entries := fun s =>
          (if removesPath kind p s = true ∧ fs.undeletable s = false
           then EntryKind.missing else fs.entries s) } : FS).entries r =
          (if removesPath kind p r = true ∧ fs.undeletable r = false
           then EntryKind.missing else fs.entries r) := fun r => rfl
      have hund : ∀ r, ({ fs with entries := fun s =>
          (if removesPath kind p s = true ∧ fs.undeletable s = false
           then EntryKind.missing else fs.entries s) } : FS).undeletable r =
          fs.undeletable r := fun r => rfl
      simp only [hent, hund]
      by_cases hwq : removesPath kind p q = true ∧ fs.undeletable q = false
      · conv_rhs => rw [if_pos ⟨hwq.2, p, List.mem_cons_self p rest, hwq.1, h1, h2⟩]
        split_ifs <;> rfl
      · have hiff : (fs.undeletable q = false ∧ ∃ r ∈ rest,
            removesPath kind r q = true ∧
            (if removesPath kind p r = true ∧ fs.undeletable r = false
             then EntryKind.missing else fs.entries r) = kind ∧
            fs.undeletable r = false) ↔
            (fs.undeletable q = false ∧ ∃ r ∈ p :: rest,
              removesPath kind r q = true ∧ fs.entries r = kind ∧
              fs.undeletable r = false) := by
          constructor
          · rintro ⟨hq, r, hr, hrem, hre, hru⟩
            by_cases hwr : removesPath kind p r = true ∧ fs.undeletable r = false
            · rw [if_pos hwr] at hre
              exact absurd hre.symm hk
            · rw [if_neg hwr] at hre
              exact ⟨hq, r, List.mem_cons_of_mem p hr, hrem, hre, hru⟩
          · rintro ⟨hq, r, hr, hrem, hre, hru⟩
            rcases List.mem_cons.mp hr with rfl | hr'
            · exact absurd ⟨hrem, hq⟩ hwq
            · refine ⟨hq, r, hr', hrem, ?_, hru⟩
              rw [if_neg (fun hwr =>
                hwq ⟨removesPath_trans kind p r q hwr.1 hrem, hq⟩)]
              exact hre
        by_cases hc : fs.undeletable q = false ∧ ∃ r ∈ p :: rest,
            removesPath kind r q = true ∧ fs.entries r = kind ∧
            fs.undeletable r = false
        · rw [if_pos (hiff.mpr hc), if_pos hc]
        · rw [if_neg (fun hx => hc (hiff.mp hx)), if_neg hc, if_neg hwq]

theorem runCleanup_pending (kind : EntryKind) (snap : List String) :
    ∀ (fs : FS) (pend : List String),
    (runCleanupList (cleanupEntryOp kind) snap fs pend).2 =
      pend.filter (fun q => !snap.contains q || removalFails kind fs q) := by
  induction snap with
  | nil =>
    intro fs pend
    have hp : (fun q => !(([] : List String).contains q) || removalFails kind fs q) =
        fun _ => true := funext fun q => rfl
    rw [hp, List.filter_true]
    rfl
  | cons p rest ih =>
    intro fs pend
    rcases cleanupEntryOp_cases kind fs p with ⟨h1, he⟩ | ⟨h1, h2, he⟩ | ⟨h1, h2, he⟩
    · simp only [runCleanupList, he, if_true]
      rw [ih, List.filter_filter]
      congr 1
      funext a
      by_cases ha : a = p
      · subst ha
        have hf : removalFails kind fs a = false := by simp [removalFails, h1]
        simp [hf]
      · simp [ha, Ne.symm ha]
    · simp only [runCleanupList, he, Bool.false_eq_true, if_false]
      rw [ih]
      congr 1
      funext a
      by_cases ha : a = p
      · subst ha
        have hf : removalFails kind fs a = true := removalFails_eq_true.mpr ⟨h1, h2⟩
        simp [hf]
      · simp [ha, Ne.symm ha]
    · simp only [runCleanupList, he, if_true]
      rw [ih, List.filter_filter]
      congr 1
      funext a
      rw [removalFails_update_inv kind kind fs p a]
      by_cases ha : a = p
      · subst ha
        have hf : removalFails kind fs a = false := by simp [removalFails, h2]
        simp [hf]
      · simp [ha, Ne.symm ha]

theorem cleanup_all_files (fs : FS) (m : CleanupManager) :
    (cleanup_all fs m).2.files_to_cleanup =
      m.files_to_cleanup.filter (removalFails EntryKind.file fs) := by
  show (runCleanupList (cleanupEntryOp EntryKind.file)
      m.files_to_cleanup fs m.files_to_cleanup).2 = _
  rw [runCleanup_pending]
  apply List.filter_congr
  intro q hq
  have hc : m.files_to_cleanup.contains q = true := List.elem_eq_true_of_mem hq
  rw [hc]
  rfl

theorem cleanup_all_dirs (fs : FS) (m : CleanupManager) :
    (cleanup_all fs m).2.directories_to_cleanup =
      m.directories_to_cleanup.filter (removalFails EntryKind.dir fs) := by
  show (runCleanupList (cleanupEntryOp EntryKind.dir) m.directories_to_cleanup
      (runCleanupList (cleanupEntryOp EntryKind.file)
        m.files_to_cleanup fs m.files_to_cleanup).1
      m.directories_to_cleanup).2 = _
  rw [runCleanup_pending]
  apply List.filter_congr
  intro q hq
  have hc : m.directories_to_cleanup.contains q = true := List.elem_eq_true_of_mem hq
  rw [hc, removalFails_run_inv]
  rfl

theorem cleanup_all_flag (fs : FS) (m : CleanupManager) :
    (cleanup_all fs m).2.cleanup_on_exit = m.cleanup_on_exit := rfl

theorem cleanup_all_entries_untouched (fs : FS) (m : CleanupManager) (p : String)
    (hf : p ∉ m.files_to_cleanup)
    (hd : ∀ d ∈ m.directories_to_cleanup, removesPath EntryKind.dir d p = false) :
    (cleanup_all fs m).1.entries p = fs.entries p := by
  show (runCleanupList (cleanupEntryOp EntryKind.dir) m.directories_to_cleanup
      (runCleanupList (cleanupEntryOp EntryKind.file)
        m.files_to_cleanup fs m.files_to_cleanup).1
      m.directories_to_cleanup).1.entries p = _
  rw [runCleanup_entries EntryKind.dir (by decide)]
  rw [if_neg (fun hc => by
    obtain ⟨_, d, hdm, hrem, _, _⟩ := hc
    rw [hd d hdm] at hrem
    exact absurd hrem (by decide))]
  rw [runCleanup_entries EntryKind.file (by decide)]
  rw [if_neg (fun hc => by
    obtain ⟨_, r, hrm, hrem, _, _⟩ := hc
    have hpr : p = r := by simpa [removesPath] using hrem
    exact hf (by rw [hpr]; exact hrm))]

attribute [ext] FS CleanupManager

theorem cleanup_all_undeletable (fs : FS) (m : CleanupManager) :
    (cleanup_all fs m).1.undeletable = fs.undeletable := by
  show (runCleanupList (cleanupEntryOp EntryKind.dir) m.directories_to_cleanup
      (runCleanupList (cleanupEntryOp EntryKind.file)
        m.files_to_cleanup fs m.files_to_cleanup).1
      m.directories_to_cleanup).1.undeletable = _
  rw [runCleanup_undeletable, runCleanup_undeletable]

theorem cleanup_all_resolve (fs : FS) (m : CleanupManager) :
    (cleanup_all fs m).1.resolve = fs.resolve := by
  show (runCleanupList (cleanupEntryOp EntryKind.dir) m.directories_to_cleanup
      (runCleanupList (cleanupEntryOp EntryKind.file)
        m.files_to_cleanup fs m.files_to_cleanup).1
      m.directories_to_cleanup).1.resolve = _
  rw [runCleanup_resolve, runCleanup_resolve]

theorem cleanup_all_persistent_files (fs : FS) (m : CleanupManager) :
    ∀ q ∈ (cleanup_all fs m).2.files_to_cleanup,
      removalFails EntryKind.file (cleanup_all fs m).1 q = true := by
  intro q hq
  rw [cleanup_all_files] at hq
  obtain ⟨hqm, hqf⟩ := List.mem_filter.mp hq
  obtain ⟨hent, hund⟩ := removalFails_eq_true.mp hqf
  have hF : (runCleanupList (cleanupEntryOp EntryKind.file)
      m.files_to_cleanup fs m.files_to_cleanup).1.entries q = fs.entries q := by
    rw [runCleanup_entries EntryKind.file (by decide),
      if_neg (fun hc => absurd (hund.symm.trans hc.1) (by decide))]
  apply removalFails_eq_true.mpr
  refine ⟨?_, by rw [cleanup_all_undeletable]; exact hund⟩
  show (runCleanupList (cleanupEntryOp EntryKind.dir) m.directories_to_cleanup
      (runCleanupList (cleanupEntryOp EntryKind.file)
        m.files_to_cleanup fs m.files_to_cleanup).1
      m.directories_to_cleanup).1.entries q = _
  rw [runCleanup_entries EntryKind.dir (by decide), runCleanup_undeletable,
    if_neg (fun hc => absurd (hund.symm.trans hc.1) (by decide)), hF]
  exact hent

theorem cleanup_all_persistent_dirs (fs : FS) (m : CleanupManager) :
    ∀ q ∈ (cleanup_all fs m).2.directories_to_cleanup,
      removalFails EntryKind.dir (cleanup_all fs m).1 q = true := by
  intro q hq
  rw [cleanup_all_dirs] at hq
  obtain ⟨hqm, hqf⟩ := List.mem_filter.mp hq
  obtain ⟨hent, hund⟩ := removalFails_eq_true.mp hqf
  have hF : (runCleanupList (cleanupEntryOp EntryKind.file)
      m.files_to_cleanup fs m.files_to_cleanup).1.entries q = fs.entries q := by
    rw [runCleanup_entries EntryKind.file (by decide),
      if_neg (fun hc => absurd (hund.symm.trans hc.1) (by decide))]
  apply removalFails_eq_true.mpr
  refine ⟨?_, by rw [cleanup_all_undeletable]; exact hund⟩
  show (runCleanupList (cleanupEntryOp EntryKind.dir) m.directories_to_cleanup
      (runCleanupList (cleanupEntryOp EntryKind.file)
        m.files_to_cleanup fs m.files_to_cleanup).1
      m.directories_to_cleanup).1.entries q = _
  rw [runCleanup_entries EntryKind.dir (by decide), runCleanup_undeletable,
    if_neg (fun hc => absurd (hund.symm.trans hc.1) (by decide)), hF]
  exact hent

theorem cleanup_all_idem (fs : FS) (m : CleanupManager) :
    cleanup_all (cleanup_all fs m).1 (cleanup_all fs m).2 = cleanup_all fs m := by
  have hfiles2 : (cleanup_all (cleanup_all fs m).1 (cleanup_all fs m).2).2.files_to_cleanup =
      (cleanup_all fs m).2.files_to_cleanup := by
    rw [cleanup_all_files]
    exact List.filter_eq_self.mpr (cleanup_all_persistent_files fs m)
  have hdirs2 : (cleanup_all (cleanup_all fs m).1 (cleanup_all fs m).2).2.directories_to_cleanup =
      (cleanup_all fs m).2.directories_to_cleanup := by
    rw [cleanup_all_dirs]
    exact List.filter_eq_self.mpr (cleanup_all_persistent_dirs fs m)
  have hfsF2 : ∀ q, (runCleanupList (cleanupEntryOp EntryKind.file)
      (cleanup_all fs m).2.files_to_cleanup (cleanup_all fs m).1
      (cleanup_all fs m).2.files_to_cleanup).1.entries q =
      (cleanup_all fs m).1.entries q := by
    intro q
    rw [runCleanup_entries EntryKind.file (by decide)]
    exact if_neg (fun hc => by
      obtain ⟨hqu, r, hr, hrem, hre, hru⟩ := hc
      have hp := removalFails_eq_true.mp (cleanup_all_persistent_files fs m r hr)
      exact absurd (hp.2.symm.trans hru) (by decide))
  have hfs2 : (cleanup_all (cleanup_all fs m).1 (cleanup_all fs m).2).1 =
      (cleanup_all fs m).1 := by
    refine FS.ext ?_ ?_ ?_
    · funext q
      show (runCleanupList (cleanupEntryOp EntryKind.dir)
          (cleanup_all fs m).2.directories_to_cleanup
          (runCleanupList (cleanupEntryOp EntryKind.file)
            (cleanup_all fs m).2.files_to_cleanup (cleanup_all fs m).1
            (cleanup_all fs m).2.files_to_cleanup).1
          (cleanup_all fs m).2.directories_to_cleanup).1.entries q = _
      rw [runCleanup_entries EntryKind.dir (by decide), hfsF2, runCleanup_undeletable]
      exact if_neg (fun hc => by
        obtain ⟨hqu, r, hr, hrem, hre, hru⟩ := hc
        have hp := removalFails_eq_true.mp (cleanup_all_persistent_dirs fs m r hr)
        exact absurd (hp.2.symm.trans hru) (by decide))
    · rw [cleanup_all_undeletable]
    · rw [cleanup_all_resolve]
  have hm2 : (cleanup_all (cleanup_all fs m).1 (cleanup_all fs m).2).2 =
      (cleanup_all fs m).2 := by
    refine CleanupManager.ext ?_ ?_ ?_
    · exact hdirs2
    · exact hfiles2
    · rfl
  calc cleanup_all (cleanup_all fs m).1 (cleanup_all fs m).2
      = ((cleanup_all (cleanup_all fs m).1 (cleanup_all fs m).2).1,
         (cleanup_all (cleanup_all fs m).1 (cleanup_all fs m).2).2) := rfl
    _ = ((cleanup_all fs m).1, (cleanup_all fs m).2) := by rw [hfs2, hm2]
    _ = cleanup_all fs m := rfl

/-! ## Claim theorems -/

/-- Claim C1, counterexample: the claim says resolution validation never
rejects any pair, but `InputValidator.validate_resolution` rejects the
pair (100, 50) with `valid = False` and an error message. -/
theorem claim_C1_counterexample :
    (validate_resolution 100 50).valid = false ∧
    (validate_resolution 100 50).errors.length = 1 := ⟨rfl, rfl⟩

/-- Claim C1 (amended): `InputValidator.validate_resolution` accepts
exactly the canonical pairs (1280, 704) and (704, 1280) and rejects any
other pair with an error; the serverless handler itself applies no
canonical-set validation and never rejects a resolution — it rounds each
dimension independently to the nearest multiple of 16 (minimum 16) and
writes the rounded values into the graph. -/
theorem claim_C1 (w h : Int) :
    ((validate_resolution w h).valid = true ↔
      ((w = 1280 ∧ h = 704) ∨ (w = 704 ∧ h = 1280))) ∧
    ((validate_resolution w h).valid = false →
      (validate_resolution w h).errors ≠ []) ∧
    (∀ (j : JobInput) (ip : Option String) (g g' : Graph),
      j.width = some w → j.height = some h → applyParams j ip g = some g' →
      getField g' "235" "value" =
        some (GValue.int (to_nearest_multiple_of_16 w)) ∧
      getField g' "236" "value" =
        some (GValue.int (to_nearest_multiple_of_16 h))) := by
  refine ⟨?_, ?_, ?_⟩
  · by_cases hmem : (w, h) ∈ valid_resolutions
    · unfold validate_resolution
      rw [if_pos hmem]
      constructor
      · intro _
        simpa [valid_resolutions, Prod.ext_iff] using hmem
      · intro _; rfl
    · unfold validate_resolution
      rw [if_neg hmem]
      constructor
      · intro hx; simp at hx
      · intro hx
        exact absurd (by simpa [valid_resolutions, Prod.ext_iff] using hx) hmem
  · unfold validate_resolution
    split_ifs <;> simp
  · intro j ip g g' hw hh hap
    have hs := applyParams_spec hap
    constructor
    · have h235 := hs.2.2.2.2.1
      rw [hw] at h235
      simpa using h235
    · have h236 := hs.2.2.2.2.2.1
      rw [hh] at h236
      simpa using h236

/-- Claim C1, witness: the canonical pair (1280, 704) validates, and the
handler processes the non-canonical pair (100, 50) without rejection,
rounding it to (96, 48). -/
theorem claim_C1_witness :
    (validate_resolution 1280 704).valid = true ∧
    ∃ g', applyParams jSmallRes none gW = some g' ∧
      getField g' "235" "value" = some (GValue.int 96) ∧
      getField g' "236" "value" = some (GValue.int 48) := by
  constructor
  · exact (claim_C1 1280 704).1.mpr (Or.inl ⟨rfl, rfl⟩)
  · cases hG : applyParams jSmallRes none gW with
    | none => exact absurd hG (by decide)
    | some g' =>
      have h := (claim_C1 100 50).2.2 jSmallRes none gW g' rfl rfl hG
      exact ⟨g', rfl, by rw [h.1]; decide, by rw [h.2]; decide⟩

/-- Claim C2, counterexample: the claim says two-or-more image sources
fail validation, but the handler accepts a job carrying both `image_path`
and `image_url`, silently selecting the path. -/
theorem claim_C2_counterexample :
    jTwoSources.image_path.isSome = true ∧ jTwoSources.image_url.isSome = true ∧
    selectImageSource jTwoSources =
      Except.ok (some (ImageSource.path "/tmp/input.jpg")) := ⟨rfl, rfl, rfl⟩

/-- Claim C2 (amended): for `task = "i2v"`, if none of `image_path`,
`image_url`, `image_base64` is present the handler raises an error naming
the three fields; if at least one is present it proceeds, selecting the
first present source in the fixed priority order path, url, base64 — no
mutual-exclusion check is performed. -/
theorem claim_C2 (j : JobInput) (ht : j.task.getD "t2v" = "i2v") :
    ((j.image_path = none ∧ j.image_url = none ∧ j.image_base64 = none) →
      selectImageSource j = Except.error
        "For I2V task, provide one of: image_path, image_url, or image_base64") ∧
    (∀ p, j.image_path = some p →
      selectImageSource j = Except.ok (some (ImageSource.path p))) ∧
    (∀ u, j.image_path = none → j.image_url = some u →
      selectImageSource j = Except.ok (some (ImageSource.url u))) ∧
    (∀ b, j.image_path = none → j.image_url = none → j.image_base64 = some b →
      selectImageSource j = Except.ok (some (ImageSource.base64 b))) := by
  refine ⟨?_, ?_, ?_, ?_⟩
  · rintro ⟨h1, h2, h3⟩
    unfold selectImageSource
    rw [if_pos ht, h1, h2, h3]
  · intro p hp
    unfold selectImageSource
    rw [if_pos ht, hp]
  · intro u h1 hu
    unfold selectImageSource
    rw [if_pos ht, h1, hu]
  · intro b h1 h2 hb
    unfold selectImageSource
    rw [if_pos ht, h1, h2, hb]

/-- Claim C2, witness: exactly one source (inline base64) is accepted,
and zero sources raise the error naming the three fields. -/
theorem claim_C2_witness :
    selectImageSource jOnlyBase64 = Except.ok (some (ImageSource.base64 "QUJD")) ∧
    selectImageSource jNoSource = Except.error
      "For I2V task, provide one of: image_path, image_url, or image_base64" :=
  ⟨(claim_C2 jOnlyBase64 rfl).2.2.2 "QUJD" rfl rfl rfl,
   (claim_C2 jNoSource rfl).1 ⟨rfl, rfl, rfl⟩⟩

/-- Claim C3: the claim says the handler probes the engine's HTTP base
endpoint, retries up to 180 attempts with 1-second spacing, and raises a
fatal connection error iff all attempts are exhausted.  In the code the
probe loop's try-body contains only a log statement and `break`, so no
request is ever issued: the loop reports success after the first attempt
for every reachability behaviour — even an engine that is never reachable
— and the error branch is unreachable. -/
theorem claim_C3 (reachable : Nat → Bool) :
    httpProbe reachable = Except.ok 1 := rfl

/-- Claim C4: `to_nearest_multiple_of_16` returns a multiple of 16 that
is at least 16 and, among all such multiples, nearest to the input; an
input that is already a multiple of 16 and at least 16 is returned
unchanged; an input that is 0 or negative yields the floor value 16; the
function is idempotent. -/
theorem claim_C4 (n : Int) :
    16 ∣ to_nearest_multiple_of_16 n ∧
    16 ≤ to_nearest_multiple_of_16 n ∧
    (∀ m : Int, 16 ∣ m → 16 ≤ m →
      |to_nearest_multiple_of_16 n - n| ≤ |m - n|) ∧
    (16 ∣ n → 16 ≤ n → to_nearest_multiple_of_16 n = n) ∧
    (n ≤ 0 → to_nearest_multiple_of_16 n = 16) ∧
    to_nearest_multiple_of_16 (to_nearest_multiple_of_16 n) =
      to_nearest_multiple_of_16 n :=
  ⟨to16_dvd n, to16_ge n, fun m hm hm16 => to16_nearest n m hm hm16,
   fun h1 h2 => to16_fixed n h1 h2, fun h => to16_floor n h, to16_idem n⟩

/-- Claim C4, witness: 48 (a multiple of 16) is fixed, -3 floors to 16,
and 100 rounds at least as close as the multiple 96. -/
theorem claim_C4_witness :
    to_nearest_multiple_of_16 48 = 48 ∧
    to_nearest_multiple_of_16 (-3) = 16 ∧
    |to_nearest_multiple_of_16 100 - 100| ≤ |96 - 100| :=
  ⟨(claim_C4 48).2.2.2.1 ⟨3, by decide⟩ (by decide),
   (claim_C4 (-3)).2.2.2.2.1 (by decide),
   (claim_C4 100).2.2.1 96 ⟨6, by decide⟩ (by decide)⟩

/-- Claim C5: `validate_num_frames` succeeds exactly on the closed range
`[1, 300]` and `validate_steps` exactly on `[1, 50]`; all four boundary
values succeed. -/
theorem claim_C5 (n : Int) :
    ((validate_num_frames n).valid = true ↔ 1 ≤ n ∧ n ≤ 300) ∧
    ((validate_steps n).valid = true ↔ 1 ≤ n ∧ n ≤ 50) ∧
    (validate_num_frames 1).valid = true ∧
    (validate_num_frames 300).valid = true ∧
    (validate_steps 1).valid = true ∧
    (validate_steps 50).valid = true := by
  refine ⟨?_, ?_, by decide, by decide, by decide, by decide⟩
  · unfold validate_num_frames
    split_ifs <;> simp <;> omega
  · unfold validate_steps
    split_ifs <;> simp <;> omega

/-- Claim C5, witness: an in-range value succeeds for both validators. -/
theorem claim_C5_witness :
    (validate_num_frames 200).valid = true ∧ (validate_steps 25).valid = true :=
  ⟨(claim_C5 200).1.mpr (by decide), (claim_C5 25).2.1.mpr (by decide)⟩

/-- Claim C6: the poll loop stops at index `i` exactly when the frame at
`i` is the completion sentinel and no earlier frame is; a text frame is
the sentinel iff its type is `"executing"`, its node is null and its
prompt id matches the submitted one; non-text frames, other event types
and other job ids never stop the loop. -/
theorem claim_C6 (pid : String) (l : List WsFrame) (i : Nat) :
    (pollLoop pid l = some i ↔
      ((∃ f, l[i]? = some f ∧ isCompletionSentinel pid f = true) ∧
       ∀ j g, j < i → l[j]? = some g → isCompletionSentinel pid g = false)) ∧
    (∀ t nd mp, isCompletionSentinel pid (WsFrame.text t nd mp) = true ↔
      (t = "executing" ∧ nd = none ∧ mp = pid)) ∧
    (∀ len, isCompletionSentinel pid (WsFrame.binary len) = false) := by
  refine ⟨pollLoop_iff pid l i, ?_, fun len => rfl⟩
  intro t nd mp
  simp [isCompletionSentinel]

/-- Claim C6, witness: the sentinel frame for the submitted id stops the
loop at its index. -/
theorem claim_C6_witness :
    pollLoop "p-123" [WsFrame.text "executing" none "p-123"] = some 0 :=
  (claim_C6 "p-123" [WsFrame.text "executing" none "p-123"] 0).1.mpr
    ⟨⟨WsFrame.text "executing" none "p-123", rfl, by decide⟩,
     fun j g hj _ => absurd hj (Nat.not_lt_zero j)⟩

/-- Claim C7, counterexample: the claim says the pending counts are zero
after the first `cleanup_all` for every tracker state, but when the
single registered file's removal raises, the file stays pending. -/
theorem claim_C7_counterexample :
    (get_cleanup_stats (cleanup_all fsUndeletableA mSingleFile).2).files_pending = 1 := by
  decide

/-- Claim C7 (amended): calling `cleanup_all` twice never errors (both
runs are total) and the second call removes nothing — it leaves both the
filesystem and the tracker exactly as the first call left them; after the
first call the pending counts are zero provided no registered entry's
removal raises (entries already missing on disk, or of the other kind,
are treated as successfully cleaned and deregistered). -/
theorem claim_C7 (fs : FS) (m : CleanupManager) :
    cleanup_all (cleanup_all fs m).1 (cleanup_all fs m).2 = cleanup_all fs m ∧
    ((∀ q ∈ m.files_to_cleanup, removalFails EntryKind.file fs q = false) →
     (∀ q ∈ m.directories_to_cleanup, removalFails EntryKind.dir fs q = false) →
     (get_cleanup_stats (cleanup_all fs m).2).files_pending = 0 ∧
     (get_cleanup_stats (cleanup_all fs m).2).directories_pending = 0) ∧
    (∀ q ∈ m.files_to_cleanup, fs.entries q = EntryKind.missing →
      q ∉ (cleanup_all fs m).2.files_to_cleanup) ∧
    (∀ q ∈ m.directories_to_cleanup, fs.entries q = EntryKind.missing →
      q ∉ (cleanup_all fs m).2.directories_to_cleanup) := by
  refine ⟨cleanup_all_idem fs m, ?_, ?_, ?_⟩
  · intro hF hD
    constructor
    · show (cleanup_all fs m).2.files_to_cleanup.length = 0
      rw [cleanup_all_files, List.length_eq_zero]
      apply List.filter_eq_nil_iff.mpr
      intro a ha
      simp [hF a ha]
    · show (cleanup_all fs m).2.directories_to_cleanup.length = 0
      rw [cleanup_all_dirs, List.length_eq_zero]
      apply List.filter_eq_nil_iff.mpr
      intro a ha
      simp [hD a ha]
  · intro q hq hmiss hmem
    rw [cleanup_all_files] at hmem
    obtain ⟨_, hfail⟩ := List.mem_filter.mp hmem
    obtain ⟨hent, _⟩ := removalFails_eq_true.mp hfail
    exact absurd (hmiss.symm.trans hent) (by decide)
  · intro q hq hmiss hmem
    rw [cleanup_all_dirs] at hmem
    obtain ⟨_, hfail⟩ := List.mem_filter.mp hmem
    obtain ⟨hent, _⟩ := removalFails_eq_true.mp hfail
    exact absurd (hmiss.symm.trans hent) (by decide)

/-- Claim C7, witness: with one removable file and one removable
directory registered, both pending counts are zero after the first
`cleanup_all`. -/
theorem claim_C7_witness :
    (get_cleanup_stats (cleanup_all fsClean mFileAndDir).2).files_pending = 0 ∧
    (get_cleanup_stats (cleanup_all fsClean mFileAndDir).2).directories_pending = 0 :=
  (claim_C7 fsClean mFileAndDir).2.1 (by decide) (by decide)

/-- Claim C8, counterexample: the claim says a missing bucket makes the
upload a silent skip, but with a malformed `R2_PRESIGNED_EXPIRY` the
`int(...)` call on line 144 raises before the configuration check, even
though the bucket is missing. -/
theorem claim_C8_counterexample :
    upload_output_video envBadExpiry "u-1" presignRaises =
      Except.error "invalid literal for int() with base 10" := rfl

/-- Claim C8 (amended): provided the presigned-expiry environment value
(default "86400") parses as an integer, a missing or empty bucket,
endpoint or credential value makes the upload a silent skip returning no
link; when all are present and presigned-link generation fails, a direct
non-expiring endpoint URL is returned instead of failing. -/
theorem claim_C8 (env : R2Env) (uuid : String)
    (presign : String → String → Int → Option String) (e : Int)
    (hexp : parseIntLit (env.presigned_expiry.getD "86400") = some e) :
    ((truthy env.bucket = false ∨ truthy env.endpoint = false ∨
      truthy env.access_key = false ∨ truthy env.secret = false) →
      upload_output_video env uuid presign = Except.ok none) ∧
    (truthy env.bucket = true → truthy env.endpoint = true →
     truthy env.access_key = true → truthy env.secret = true →
     presign (env.bucket.getD "")
       ((env.upload_directory.getD "video-outputs") ++ "/" ++ uuid ++ ".mp4") e = none →
     upload_output_video env uuid presign =
       Except.ok (some ((env.endpoint.getD "") ++ "/" ++ (env.bucket.getD "") ++ "/" ++
         ((env.upload_directory.getD "video-outputs") ++ "/" ++ uuid ++ ".mp4")))) := by
  constructor
  · intro hmiss
    have hc : ¬(truthy env.bucket = true ∧ truthy env.endpoint = true ∧
        truthy env.access_key = true ∧ truthy env.secret = true) := by
      rcases hmiss with hx | hx | hx | hx <;> simp [hx]
    simp only [upload_output_video, hexp]
    rw [if_neg hc]
  · intro h1 h2 h3 h4 hp
    simp only [upload_output_video, hexp]
    rw [if_pos ⟨h1, h2, h3, h4⟩, hp]

/-- Claim C8, witness: a missing bucket skips the upload without error,
and a failing presign call falls back to the direct endpoint URL. -/
theorem claim_C8_witness :
    upload_output_video envMissingBucket "u-2" presignRaises = Except.ok none ∧
    upload_output_video envFull "u-3" presignRaises =
      Except.ok (some "https://acc.r2.example/videos/video-outputs/u-3.mp4") := by
  constructor
  · exact (claim_C8 envMissingBucket "u-2" presignRaises 86400 rfl).1 (Or.inl rfl)
  · have h := (claim_C8 envFull "u-3" presignRaises 86400 rfl).2 rfl rfl rfl rfl rfl
    rw [h]
    rfl

/-- Claim C9, counterexample: the claim says a path that did not exist
at registration time "will never be removed by a later `cleanup_all`
even if it is created afterwards" — but `shutil.rmtree` removes a
registered directory recursively, so `/tmp/job/late.png`, nonexistent
when `add_file` was called (and hence not registered), is nevertheless
deleted by `cleanup_all` once it has been created inside the registered
directory `/tmp/job`. -/
theorem claim_C9_counterexample :
    add_file fsAllMissing mJobDir "/tmp/job/late.png" = mJobDir ∧
    fsLate.entries "/tmp/job/late.png" = EntryKind.file ∧
    (cleanup_all fsLate mJobDir).1.entries "/tmp/job/late.png" =
      EntryKind.missing := by
  refine ⟨?_, rfl, by decide⟩
  unfold add_file
  rw [if_neg (by simp [fsAllMissing])]

/-- Claim C9 (amended): a path that does not exist at call time is
silently not registered by `add_file` / `add_directory` (the tracker is
unchanged), and a later `cleanup_all` never removes the path directly:
it survives provided it is not registered as a file and does not lie
inside any registered directory — it can only disappear as part of a
registered directory's recursive removal. -/
theorem claim_C9 (fs : FS) (m : CleanupManager) (p : String)
    (h : fs.entries p = EntryKind.missing) :
    add_file fs m p = m ∧ add_directory fs m p = m ∧
    (∀ fs' : FS, p ∉ m.files_to_cleanup →
      (∀ d ∈ m.directories_to_cleanup, removesPath EntryKind.dir d p = false) →
      (cleanup_all fs' m).1.entries p = fs'.entries p) := by
  refine ⟨?_, ?_, fun fs' hf hd => cleanup_all_entries_untouched fs' m p hf hd⟩
  · unfold add_file
    rw [if_neg (by simp [h])]
  · unfold add_directory
    rw [if_neg (by simp [h])]

/-- Claim C9, witness: a nonexistent path is not registered on a fresh
tracker, and a later cleanup over a filesystem where it exists — with no
registered entry covering it — leaves it untouched. -/
theorem claim_C9_witness :
    add_file fsAllMissing cleanupManagerInit "ghost.tmp" = cleanupManagerInit ∧
    (cleanup_all fsClean cleanupManagerInit).1.entries "ghost.tmp" =
      fsClean.entries "ghost.tmp" := by
  have h := claim_C9 fsAllMissing cleanupManagerInit "ghost.tmp" rfl
  exact ⟨h.1, h.2.2 fsClean (by simp [cleanupManagerInit])
    (fun d hd => absurd hd (by simp [cleanupManagerInit]))⟩

/-- Claim C10: the handler applies no range validation to `num_frames`,
`steps`, `seed` or `cfg`: whenever the workflow patch succeeds, the
values (defaulted to 81, 10, 42, 2.0 when absent) are written into the
graph unchanged, for every job input including out-of-range ones. -/
theorem claim_C10 (j : JobInput) (ip : Option String) (g g' : Graph)
    (h : applyParams j ip g = some g') :
    getField g' "541" "num_frames" = some (GValue.int (j.num_frames.getD 81)) ∧
    getField g' "220" "seed" = some (GValue.int (j.seed.getD 42)) ∧
    getField g' "540" "seed" = some (GValue.int (j.seed.getD 42)) ∧
    getField g' "540" "cfg" = some (GValue.rat (j.cfg.getD 2)) ∧
    (hasNode g "834" = true →
      getField g' "834" "steps" = some (GValue.int (j.steps.getD 10))) := by
  have hs := applyParams_spec h
  exact ⟨hs.1, hs.2.1, hs.2.2.1, hs.2.2.2.1, hs.2.2.2.2.2.2⟩

/-- Claim C10, witness: a job with `num_frames = 1000` (beyond 300) and
`steps = 99` (beyond 50) patches the workflow successfully and the
out-of-range values appear in the graph verbatim. -/
theorem claim_C10_witness :
    ∃ g', applyParams jOutOfRange none gW = some g' ∧
      getField g' "541" "num_frames" = some (GValue.int 1000) ∧
      getField g' "834" "steps" = some (GValue.int 99) ∧
      getField g' "220" "seed" = some (GValue.int (-7)) := by
  cases hG : applyParams jOutOfRange none gW with
  | none => exact absurd hG (by decide)
  | some g' =>
    have h := claim_C10 jOutOfRange none gW g' hG
    exact ⟨g', rfl, h.1, h.2.2.2.2 (by decide), h.2.1⟩

end Wan22

